import Mathlib

/-!
Verification development for the CPUID feature-levelling and policy engine of
`tools/libxc/xc_cpuid_x86.c` (Xen libxc).

The C code is shallowly embedded: register values are natural numbers understood
to be 32-bit (all operations either preserve the 32-bit bound or only the low 32
bits are ever inspected), the hardware `cpuid` instruction is an oracle
`hw : leaf -> subleaf -> Regs`, hypercalls and `malloc` results are oracle fields
of `XcEnv`, and fallible functions return `Except Int` carrying the C `-errno`
return codes.
-/

set_option maxRecDepth 4000

deriving instance DecidableEq for Except

namespace XcCpuid

/-! ## Constants from the source -/

def DEF_MAX_BASE : ℕ := 0x0000000d
def DEF_MAX_INTELEXT : ℕ := 0x80000008
def DEF_MAX_AMDEXT : ℕ := 0x8000001c

/-- Value of `XEN_CPUID_INPUT_UNUSED` from the Xen public headers (not under
`src/`): the all-ones 32-bit sentinel marking an unused subleaf input. -/
def XEN_CPUID_INPUT_UNUSED : ℕ := 0xffffffff

/-- Errno values used by the source (returned negated). -/
def EPERM : Int := 1
def ESRCH : Int := 3
def ENOMEM : Int := 12
def EINVAL : Int := 22
def EOPNOTSUPP : Int := 95

/-!
Feature-bit indices. The numeric values come from the generated
`xen/arch-x86/cpufeatureset.h` (word index * 32 + bit-in-register); the file is
not under `src/`, so the values are the architectural CPUID bit positions that
header encodes. `bitmaskof` masks the index with 31, so only the bit-in-register
component is ever used by the code below.
-/

def X86_FEATURE_FPU : ℕ := 0
def X86_FEATURE_VME : ℕ := 1
def X86_FEATURE_DE : ℕ := 2
def X86_FEATURE_PSE : ℕ := 3
def X86_FEATURE_TSC : ℕ := 4
def X86_FEATURE_MSR : ℕ := 5
def X86_FEATURE_PAE : ℕ := 6
def X86_FEATURE_MCE : ℕ := 7
def X86_FEATURE_CX8 : ℕ := 8
def X86_FEATURE_APIC : ℕ := 9
def X86_FEATURE_SEP : ℕ := 11
def X86_FEATURE_MTRR : ℕ := 12
def X86_FEATURE_PGE : ℕ := 13
def X86_FEATURE_MCA : ℕ := 14
def X86_FEATURE_CMOV : ℕ := 15
def X86_FEATURE_PAT : ℕ := 16
def X86_FEATURE_PSE36 : ℕ := 17
def X86_FEATURE_CLFLUSH : ℕ := 19
def X86_FEATURE_DS : ℕ := 21
def X86_FEATURE_ACPI : ℕ := 22
def X86_FEATURE_MMX : ℕ := 23
def X86_FEATURE_FXSR : ℕ := 24
def X86_FEATURE_SSE : ℕ := 25
def X86_FEATURE_SSE2 : ℕ := 26
def X86_FEATURE_HTT : ℕ := 28
def X86_FEATURE_TM1 : ℕ := 29
def X86_FEATURE_PBE : ℕ := 31

def X86_FEATURE_SSE3 : ℕ := 32 + 0
def X86_FEATURE_PCLMULQDQ : ℕ := 32 + 1
def X86_FEATURE_DTES64 : ℕ := 32 + 2
def X86_FEATURE_MONITOR : ℕ := 32 + 3
def X86_FEATURE_DSCPL : ℕ := 32 + 4
def X86_FEATURE_VMX : ℕ := 32 + 5
def X86_FEATURE_SMX : ℕ := 32 + 6
def X86_FEATURE_EIST : ℕ := 32 + 7
def X86_FEATURE_TM2 : ℕ := 32 + 8
def X86_FEATURE_SSSE3 : ℕ := 32 + 9
def X86_FEATURE_FMA : ℕ := 32 + 12
def X86_FEATURE_CX16 : ℕ := 32 + 13
def X86_FEATURE_XTPR : ℕ := 32 + 14
def X86_FEATURE_PDCM : ℕ := 32 + 15
def X86_FEATURE_PCID : ℕ := 32 + 17
def X86_FEATURE_DCA : ℕ := 32 + 18
def X86_FEATURE_SSE4_1 : ℕ := 32 + 19
def X86_FEATURE_SSE4_2 : ℕ := 32 + 20
def X86_FEATURE_X2APIC : ℕ := 32 + 21
def X86_FEATURE_MOVBE : ℕ := 32 + 22
def X86_FEATURE_POPCNT : ℕ := 32 + 23
def X86_FEATURE_TSC_DEADLINE : ℕ := 32 + 24
def X86_FEATURE_AESNI : ℕ := 32 + 25
def X86_FEATURE_XSAVE : ℕ := 32 + 26
def X86_FEATURE_AVX : ℕ := 32 + 28
def X86_FEATURE_F16C : ℕ := 32 + 29
def X86_FEATURE_RDRAND : ℕ := 32 + 30
def X86_FEATURE_HYPERVISOR : ℕ := 32 + 31

def X86_FEATURE_SYSCALL : ℕ := 64 + 11
def X86_FEATURE_NX : ℕ := 64 + 20
def X86_FEATURE_MMXEXT : ℕ := 64 + 22
def X86_FEATURE_FFXSR : ℕ := 64 + 25
def X86_FEATURE_PAGE1GB : ℕ := 64 + 26
def X86_FEATURE_RDTSCP : ℕ := 64 + 27
def X86_FEATURE_LM : ℕ := 64 + 29
def X86_FEATURE_3DNOWEXT : ℕ := 64 + 30
def X86_FEATURE_3DNOW : ℕ := 64 + 31

def X86_FEATURE_LAHF_LM : ℕ := 96 + 0
def X86_FEATURE_CMP_LEGACY : ℕ := 96 + 1
def X86_FEATURE_SVM : ℕ := 96 + 2
def X86_FEATURE_CR8_LEGACY : ℕ := 96 + 4
def X86_FEATURE_ABM : ℕ := 96 + 5
def X86_FEATURE_SSE4A : ℕ := 96 + 6
def X86_FEATURE_MISALIGNSSE : ℕ := 96 + 7
def X86_FEATURE_3DNOWPREFETCH : ℕ := 96 + 8
def X86_FEATURE_OSVW : ℕ := 96 + 9
def X86_FEATURE_IBS : ℕ := 96 + 10
def X86_FEATURE_XOP : ℕ := 96 + 11
def X86_FEATURE_SKINIT : ℕ := 96 + 12
def X86_FEATURE_WDT : ℕ := 96 + 13
def X86_FEATURE_LWP : ℕ := 96 + 15
def X86_FEATURE_FMA4 : ℕ := 96 + 16
def X86_FEATURE_NODEID_MSR : ℕ := 96 + 19
def X86_FEATURE_TBM : ℕ := 96 + 21
def X86_FEATURE_TOPOEXT : ℕ := 96 + 22
def X86_FEATURE_DBEXT : ℕ := 96 + 26

def X86_FEATURE_FSGSBASE : ℕ := 160 + 0
def X86_FEATURE_TSC_ADJUST : ℕ := 160 + 1
def X86_FEATURE_BMI1 : ℕ := 160 + 3
def X86_FEATURE_HLE : ℕ := 160 + 4
def X86_FEATURE_AVX2 : ℕ := 160 + 5
def X86_FEATURE_SMEP : ℕ := 160 + 7
def X86_FEATURE_BMI2 : ℕ := 160 + 8
def X86_FEATURE_ERMS : ℕ := 160 + 9
def X86_FEATURE_INVPCID : ℕ := 160 + 10
def X86_FEATURE_RTM : ℕ := 160 + 11
def X86_FEATURE_MPX : ℕ := 160 + 14
def X86_FEATURE_RDSEED : ℕ := 160 + 18
def X86_FEATURE_ADX : ℕ := 160 + 19
def X86_FEATURE_SMAP : ℕ := 160 + 20
def X86_FEATURE_PCOMMIT : ℕ := 160 + 22
def X86_FEATURE_CLFLUSHOPT : ℕ := 160 + 23
def X86_FEATURE_CLWB : ℕ := 160 + 24

def X86_FEATURE_PKU : ℕ := 192 + 3

/-- SVM feature flags used by the AMD 0x8000000a rule. -/
def SVM_FEATURE_NPT : ℕ := 0x00000001
def SVM_FEATURE_LBRV : ℕ := 0x00000002
def SVM_FEATURE_NRIPS : ℕ := 0x00000008
def SVM_FEATURE_TSCRATEMSR : ℕ := 0x00000010
def SVM_FEATURE_VMCBCLEAN : ℕ := 0x00000020
def SVM_FEATURE_DECODEASSISTS : ℕ := 0x00000080
def SVM_FEATURE_PAUSEFILTER : ℕ := 0x00000400

/-- Leaf 0x0D subleaf-1 capability bits (`#define`s local to the source file). -/
def XSAVEOPT : ℕ := 1 <<< 0
def XSAVEC : ℕ := 1 <<< 1
def XGETBV1 : ℕ := 1 <<< 2
def XSAVES : ℕ := 1 <<< 3

/-! ## Register quadruples and bit helpers -/

/-- One `unsigned int regs[4]` quadruple: (eax, ebx, ecx, edx). -/
structure Regs where
  eax : ℕ
  ebx : ℕ
  ecx : ℕ
  edx : ℕ
deriving DecidableEq, Repr

/-- Read `regs[i]`. -/
def Regs.get (r : Regs) : Fin 4 → ℕ
  | 0 => r.eax
  | 1 => r.ebx
  | 2 => r.ecx
  | 3 => r.edx

/-- Write `regs[i]`. -/
def Regs.set (r : Regs) : Fin 4 → ℕ → Regs
  | 0, v => { r with eax := v }
  | 1, v => { r with ebx := v }
  | 2, v => { r with ecx := v }
  | 3, v => { r with edx := v }

/-- Source macro `bitmaskof(idx) = 1u << ((idx) & 31)`. -/
def bitmaskof (idx : ℕ) : ℕ := 1 <<< (idx &&& 31)

/-- Source macro `clear_bit(idx, dst)`; `~` is complement within 32 bits. -/
def clear_bit (idx dst : ℕ) : ℕ := dst &&& (0xffffffff ^^^ bitmaskof idx)

/-- Source macro `set_bit(idx, dst)`. -/
def set_bit (idx dst : ℕ) : ℕ := dst ||| bitmaskof idx

/-! ## Domain context -/

inductive Vendor where
  | VENDOR_UNKNOWN
  | VENDOR_INTEL
  | VENDOR_AMD
deriving DecidableEq, Repr

export Vendor (VENDOR_UNKNOWN VENDOR_INTEL VENDOR_AMD)

/-- The `struct cpuid_domain_info` fields consumed by the policy functions.
The source also stores a `featureset` copy and its length in this struct, but no
function in the file ever reads them back, so the model keeps only the scalar
fields (the featureset truncation *check* is modelled inside
`get_cpuid_domain_info`). -/
structure CpuidDomainInfo where
  vendor : Vendor
  hvm : Bool
  pvh : Bool
  xfeature_mask : ℕ
  pv64 : Bool
  pae : Bool
  nestedhvm : Bool
deriving DecidableEq, Repr

/-- Hardware oracle: the `cpuid` instruction as a pure map from
(eax-input, ecx-count) to a register quadruple. -/
def HwOracle : Type := ℕ → ℕ → Regs

/-- The `cpuid()` helper: an `input[1]` equal to `XEN_CPUID_INPUT_UNUSED` is
issued with ecx-count 0. -/
def cpuid (hw : HwOracle) (input : ℕ × ℕ) : Regs :=
  hw input.1 (if input.2 = XEN_CPUID_INPUT_UNUSED then 0 else input.2)

/-! ## Vendor policy passes -/

/-- Embedding of `amd_xc_cpuid_policy`. -/
def amd_xc_cpuid_policy (info : CpuidDomainInfo) (input : ℕ × ℕ) (regs : Regs) :
    Regs :=
  if input.1 = 0x00000002 ∨ input.1 = 0x00000004 then
    { regs with eax := 0, ebx := 0, ecx := 0 }
  else if input.1 = 0x80000000 then
    if regs.eax > DEF_MAX_AMDEXT then { regs with eax := DEF_MAX_AMDEXT } else regs
  else if input.1 = 0x80000001 then
    let edx0 := if ¬ info.pae then clear_bit X86_FEATURE_PAE regs.edx else regs.edx
    { regs with
      ecx := regs.ecx &&&
        (bitmaskof X86_FEATURE_LAHF_LM |||
         bitmaskof X86_FEATURE_CMP_LEGACY |||
         (if info.nestedhvm then bitmaskof X86_FEATURE_SVM else 0) |||
         bitmaskof X86_FEATURE_CR8_LEGACY |||
         bitmaskof X86_FEATURE_ABM |||
         bitmaskof X86_FEATURE_SSE4A |||
         bitmaskof X86_FEATURE_MISALIGNSSE |||
         bitmaskof X86_FEATURE_3DNOWPREFETCH |||
         bitmaskof X86_FEATURE_OSVW |||
         bitmaskof X86_FEATURE_XOP |||
         bitmaskof X86_FEATURE_LWP |||
         bitmaskof X86_FEATURE_FMA4 |||
         bitmaskof X86_FEATURE_TBM |||
         bitmaskof X86_FEATURE_DBEXT),
      edx := edx0 &&&
        (0x0183f3ff |||
         bitmaskof X86_FEATURE_NX |||
         bitmaskof X86_FEATURE_LM |||
         bitmaskof X86_FEATURE_PAGE1GB |||
         bitmaskof X86_FEATURE_SYSCALL |||
         bitmaskof X86_FEATURE_MMXEXT |||
         bitmaskof X86_FEATURE_FFXSR |||
         bitmaskof X86_FEATURE_3DNOW |||
         bitmaskof X86_FEATURE_3DNOWEXT) }
  else if input.1 = 0x80000008 then
    { regs with ecx := ((regs.ecx &&& 0xf000) + 1) |||
                       ((regs.ecx &&& 0xff) <<< 1) ||| 1 }
  else if input.1 = 0x8000000a then
    if ¬ info.nestedhvm then ⟨0, 0, 0, 0⟩
    else
      { regs with edx :=
          (regs.edx &&&
            (SVM_FEATURE_NPT ||| SVM_FEATURE_LBRV ||| SVM_FEATURE_NRIPS |||
             SVM_FEATURE_PAUSEFILTER ||| SVM_FEATURE_DECODEASSISTS)) |||
          (SVM_FEATURE_VMCBCLEAN ||| SVM_FEATURE_TSCRATEMSR) }
  else regs

/-- Embedding of `intel_xc_cpuid_policy`. -/
def intel_xc_cpuid_policy (info : CpuidDomainInfo) (input : ℕ × ℕ) (regs : Regs) :
    Regs :=
  if input.1 = 0x00000001 then
    if info.nestedhvm then { regs with ecx := set_bit X86_FEATURE_VMX regs.ecx }
    else regs
  else if input.1 = 0x00000004 then
    { regs with
      eax := ((regs.eax &&& 0x7c000000) <<< 1) ||| 0x04000000 ||| (regs.eax &&& 0x3ff),
      edx := regs.edx &&& 0x3ff }
  else if input.1 = 0x80000000 then
    if regs.eax > DEF_MAX_INTELEXT then { regs with eax := DEF_MAX_INTELEXT } else regs
  else if input.1 = 0x80000001 then
    { regs with
      ecx := regs.ecx &&&
        (bitmaskof X86_FEATURE_LAHF_LM |||
         bitmaskof X86_FEATURE_3DNOWPREFETCH |||
         bitmaskof X86_FEATURE_ABM),
      edx := regs.edx &&&
        (bitmaskof X86_FEATURE_NX |||
         bitmaskof X86_FEATURE_LM |||
         bitmaskof X86_FEATURE_PAGE1GB |||
         bitmaskof X86_FEATURE_SYSCALL |||
         bitmaskof X86_FEATURE_RDTSCP) }
  else if input.1 = 0x80000005 then
    { regs with eax := 0, ebx := 0, ecx := 0 }
  else if input.1 = 0x80000008 then
    { regs with ecx := 0 }
  else regs

/-- Maximum of `eax + ebx` over hardware subleaves 2..63 of leaf 0x0D
(the `for ( _input[1] = 2; _input[1] < 64; _input[1]++ )` probe loop). -/
def xsave_max_size (hw : HwOracle) : ℕ :=
  (List.range' 2 62).foldl
    (fun acc s =>
      let r := hw 0xd s
      if r.eax + r.ebx > acc then r.eax + r.ebx else acc) 0

/-- Embedding of `xc_cpuid_config_xsave` (leaf 0x0D). A subleaf outside 0..63
falls out of the `switch` and leaves the quadruple untouched, exactly as the
source does. -/
def xc_cpuid_config_xsave (hw : HwOracle) (info : CpuidDomainInfo)
    (input : ℕ × ℕ) (regs : Regs) : Regs :=
  if info.xfeature_mask = 0 then ⟨0, 0, 0, 0⟩
  else if input.2 = 0 then
    { eax := info.xfeature_mask &&& 0xffffffff,
      ebx := 512 + 64,
      ecx := xsave_max_size hw,
      edx := (info.xfeature_mask >>> 32) &&& 0xffffffff }
  else if input.2 = 1 then
    let eax0 := regs.eax &&& (XSAVEOPT ||| XSAVEC ||| XGETBV1 ||| XSAVES)
    { regs with
      eax := if ¬ info.hvm then eax0 &&& (0xffffffff ^^^ XSAVES) else eax0,
      ecx := regs.ecx &&& info.xfeature_mask,
      edx := 0 }
  else if 2 ≤ input.2 ∧ input.2 ≤ 63 then
    if info.xfeature_mask &&& (1 <<< input.2) = 0 then ⟨0, 0, 0, 0⟩
    else { regs with ecx := 0, edx := 0 }
  else regs

/-- Embedding of `xc_cpuid_hvm_policy`, including the trailing vendor pass
(AMD for `VENDOR_AMD`, the Intel pass otherwise, also for `VENDOR_UNKNOWN`). -/
def xc_cpuid_hvm_policy (hw : HwOracle) (info : CpuidDomainInfo)
    (input : ℕ × ℕ) (regs : Regs) : Regs :=
  let regs1 :=
    if input.1 = 0x00000000 then
      if regs.eax > DEF_MAX_BASE then { regs with eax := DEF_MAX_BASE } else regs
    else if input.1 = 0x00000001 then
      let ebx1 := (regs.ebx &&& 0x0000ffff) ||| ((regs.ebx &&& 0x007f0000) <<< 1)
      let ecx1 := regs.ecx &&&
        (bitmaskof X86_FEATURE_SSE3 |||
         bitmaskof X86_FEATURE_PCLMULQDQ |||
         bitmaskof X86_FEATURE_SSSE3 |||
         bitmaskof X86_FEATURE_FMA |||
         bitmaskof X86_FEATURE_CX16 |||
         bitmaskof X86_FEATURE_PCID |||
         bitmaskof X86_FEATURE_SSE4_1 |||
         bitmaskof X86_FEATURE_SSE4_2 |||
         bitmaskof X86_FEATURE_MOVBE |||
         bitmaskof X86_FEATURE_POPCNT |||
         bitmaskof X86_FEATURE_AESNI |||
         bitmaskof X86_FEATURE_F16C |||
         bitmaskof X86_FEATURE_RDRAND |||
         (if info.xfeature_mask ≠ 0 then
            bitmaskof X86_FEATURE_AVX ||| bitmaskof X86_FEATURE_XSAVE
          else 0))
      let ecx2 := ecx1 |||
        (bitmaskof X86_FEATURE_HYPERVISOR |||
         bitmaskof X86_FEATURE_TSC_DEADLINE |||
         bitmaskof X86_FEATURE_X2APIC)
      let edx1 := regs.edx &&&
        (bitmaskof X86_FEATURE_FPU |||
         bitmaskof X86_FEATURE_VME |||
         bitmaskof X86_FEATURE_DE |||
         bitmaskof X86_FEATURE_PSE |||
         bitmaskof X86_FEATURE_TSC |||
         bitmaskof X86_FEATURE_MSR |||
         bitmaskof X86_FEATURE_PAE |||
         bitmaskof X86_FEATURE_MCE |||
         bitmaskof X86_FEATURE_CX8 |||
         bitmaskof X86_FEATURE_APIC |||
         bitmaskof X86_FEATURE_SEP |||
         bitmaskof X86_FEATURE_MTRR |||
         bitmaskof X86_FEATURE_PGE |||
         bitmaskof X86_FEATURE_MCA |||
         bitmaskof X86_FEATURE_CMOV |||
         bitmaskof X86_FEATURE_PAT |||
         bitmaskof X86_FEATURE_CLFLUSH |||
         bitmaskof X86_FEATURE_PSE36 |||
         bitmaskof X86_FEATURE_MMX |||
         bitmaskof X86_FEATURE_FXSR |||
         bitmaskof X86_FEATURE_SSE |||
         bitmaskof X86_FEATURE_SSE2 |||
         bitmaskof X86_FEATURE_HTT)
      let edx2 := edx1 ||| bitmaskof X86_FEATURE_MTRR
      let edx3 := if ¬ info.pae then
          clear_bit X86_FEATURE_PSE36 (clear_bit X86_FEATURE_PAE edx2)
        else edx2
      { eax := regs.eax, ebx := ebx1, ecx := ecx2, edx := edx3 }
    else if input.1 = 0x00000007 then
      if input.2 = 0 then
        { eax := 0,
          ebx := regs.ebx &&&
            (bitmaskof X86_FEATURE_TSC_ADJUST |||
             bitmaskof X86_FEATURE_BMI1 |||
             bitmaskof X86_FEATURE_HLE |||
             bitmaskof X86_FEATURE_AVX2 |||
             bitmaskof X86_FEATURE_SMEP |||
             bitmaskof X86_FEATURE_BMI2 |||
             bitmaskof X86_FEATURE_ERMS |||
             bitmaskof X86_FEATURE_INVPCID |||
             bitmaskof X86_FEATURE_RTM |||
             (if info.xfeature_mask ≠ 0 then bitmaskof X86_FEATURE_MPX else 0) |||
             bitmaskof X86_FEATURE_RDSEED |||
             bitmaskof X86_FEATURE_ADX |||
             bitmaskof X86_FEATURE_SMAP |||
             bitmaskof X86_FEATURE_FSGSBASE |||
             bitmaskof X86_FEATURE_PCOMMIT |||
             bitmaskof X86_FEATURE_CLWB |||
             bitmaskof X86_FEATURE_CLFLUSHOPT),
          ecx := regs.ecx &&& bitmaskof X86_FEATURE_PKU,
          edx := 0 }
      else { eax := 0, ebx := 0, ecx := 0, edx := 0 }
    else if input.1 = 0x0000000d then
      xc_cpuid_config_xsave hw info input regs
    else if input.1 = 0x80000000 then
      regs
    else if input.1 = 0x80000001 then
      if ¬ info.pae then
        { regs with
          ecx := clear_bit X86_FEATURE_LAHF_LM regs.ecx,
          edx := clear_bit X86_FEATURE_PAGE1GB (clear_bit X86_FEATURE_PSE36
                   (clear_bit X86_FEATURE_NX (clear_bit X86_FEATURE_LM regs.edx))) }
      else regs
    else if input.1 = 0x80000007 then
      { eax := 0, ebx := 0, ecx := 0, edx := regs.edx &&& (1 <<< 8) }
    else if input.1 = 0x80000008 then
      { eax := regs.eax &&& 0x0000ffff, ebx := 0, ecx := regs.ecx, edx := 0 }
    else if input.1 = 0x00000002 ∨ input.1 = 0x00000004 ∨ input.1 = 0x0000000a ∨
            input.1 = 0x80000002 ∨ input.1 = 0x80000003 ∨ input.1 = 0x80000004 ∨
            input.1 = 0x80000005 ∨ input.1 = 0x80000006 ∨ input.1 = 0x8000000a ∨
            input.1 = 0x8000001c then
      regs
    else ⟨0, 0, 0, 0⟩
  if info.vendor = VENDOR_AMD then amd_xc_cpuid_policy info input regs1
  else intel_xc_cpuid_policy info input regs1

/-- Embedding of `xc_cpuid_pv_policy`. Note that it applies no vendor pass and
has no default arm: a leaf matching no `case` label is passed through. -/
def xc_cpuid_pv_policy (hw : HwOracle) (info : CpuidDomainInfo)
    (input : ℕ × ℕ) (regs : Regs) : Regs :=
  let regs0 :=
    if (input.1 &&& 0x7fffffff) = 0x00000001 then
      let edx0 := clear_bit X86_FEATURE_VME regs.edx
      let edx1 := if ¬ info.pvh then
          clear_bit X86_FEATURE_PGE (clear_bit X86_FEATURE_PSE edx0)
        else edx0
      { regs with edx :=
          clear_bit X86_FEATURE_PSE36 (clear_bit X86_FEATURE_MTRR
            (clear_bit X86_FEATURE_MCA (clear_bit X86_FEATURE_MCE edx1))) }
    else regs
  if input.1 = 0x00000001 then
    let edx0 := if info.vendor = VENDOR_AMD then
        clear_bit X86_FEATURE_SEP regs0.edx
      else regs0.edx
    let edx1 := clear_bit X86_FEATURE_PBE (clear_bit X86_FEATURE_TM1
                  (clear_bit X86_FEATURE_DS edx0))
    let ecx0 := clear_bit X86_FEATURE_TM2 (clear_bit X86_FEATURE_EIST
                  (clear_bit X86_FEATURE_SMX (clear_bit X86_FEATURE_VMX
                    (clear_bit X86_FEATURE_DSCPL (clear_bit X86_FEATURE_MONITOR
                      (clear_bit X86_FEATURE_DTES64 regs0.ecx))))))
    let ecx1 := if ¬ info.pv64 then clear_bit X86_FEATURE_CX16 ecx0 else ecx0
    let ecx2 := if info.xfeature_mask = 0 then
        clear_bit X86_FEATURE_AVX (clear_bit X86_FEATURE_XSAVE ecx1)
      else ecx1
    let ecx3 := clear_bit X86_FEATURE_DCA (clear_bit X86_FEATURE_PCID
                  (clear_bit X86_FEATURE_PDCM (clear_bit X86_FEATURE_XTPR ecx2)))
    { regs0 with ecx := set_bit X86_FEATURE_HYPERVISOR ecx3, edx := edx1 }
  else if input.1 = 0x00000007 then
    if input.2 = 0 then
      let ebx0 := regs0.ebx &&&
        (bitmaskof X86_FEATURE_BMI1 |||
         bitmaskof X86_FEATURE_HLE |||
         bitmaskof X86_FEATURE_AVX2 |||
         bitmaskof X86_FEATURE_BMI2 |||
         bitmaskof X86_FEATURE_ERMS |||
         bitmaskof X86_FEATURE_RTM |||
         bitmaskof X86_FEATURE_RDSEED |||
         bitmaskof X86_FEATURE_ADX |||
         bitmaskof X86_FEATURE_FSGSBASE)
      { eax := 0,
        ebx := if info.xfeature_mask = 0 then clear_bit X86_FEATURE_MPX ebx0 else ebx0,
        ecx := 0, edx := 0 }
    else { eax := 0, ebx := 0, ecx := 0, edx := 0 }
  else if input.1 = 0x0000000d then
    xc_cpuid_config_xsave hw info input regs0
  else if input.1 = 0x80000001 then
    let f1 := if ¬ info.pv64 then
        let a := clear_bit X86_FEATURE_LM regs0.edx
        let c := clear_bit X86_FEATURE_LAHF_LM regs0.ecx
        if info.vendor ≠ VENDOR_AMD then (clear_bit X86_FEATURE_SYSCALL a, c)
        else (a, c)
      else (set_bit X86_FEATURE_SYSCALL regs0.edx, regs0.ecx)
    let edx0 := if ¬ info.pvh then clear_bit X86_FEATURE_PAGE1GB f1.1 else f1.1
    let edx1 := clear_bit X86_FEATURE_RDTSCP edx0
    let ecx1 := clear_bit X86_FEATURE_TOPOEXT (clear_bit X86_FEATURE_NODEID_MSR
                  (clear_bit X86_FEATURE_LWP (clear_bit X86_FEATURE_WDT
                    (clear_bit X86_FEATURE_SKINIT (clear_bit X86_FEATURE_IBS
                      (clear_bit X86_FEATURE_OSVW
                        (clear_bit X86_FEATURE_SVM f1.2)))))))
    { regs0 with ecx := ecx1, edx := edx1 }
  else if input.1 = 0x00000005 ∨ input.1 = 0x0000000a ∨ input.1 = 0x0000000b ∨
          input.1 = 0x8000000a ∨ input.1 = 0x8000001b ∨ input.1 = 0x8000001c ∨
          input.1 = 0x8000001e then
    ⟨0, 0, 0, 0⟩
  else regs0

/-- Embedding of `xc_cpuid_policy`: hypervisor-reserved leaves are zeroed
outright, everything else dispatches on the guest type. -/
def xc_cpuid_policy (hw : HwOracle) (info : CpuidDomainInfo)
    (input : ℕ × ℕ) (regs : Regs) : Regs :=
  if (input.1 &&& 0xffff0000) = 0x40000000 then ⟨0, 0, 0, 0⟩
  else if info.hvm then xc_cpuid_hvm_policy hw info input regs
  else xc_cpuid_pv_policy hw info input regs

/-! ## Host environment oracles and `get_cpuid_domain_info` -/

/-- Outcomes of the external calls made by the source file, fixed per call.
Each fallible call is a `(rc, value)` pair and the code branches on `rc ≠ 0`,
mirroring the C `if ( rc ) return rc;` pattern. `allocStr n` is the success of
the n-th `alloc_str()` invocation. -/
structure XcEnv where
  hw : HwOracle
  dominfo : Option (Bool × Bool)
  callocOk : Bool
  xstateRc : Int
  xstateMask : ℕ
  paeRc : Int
  paeVal : ℕ
  nestedRc : Int
  nestedVal : ℕ
  widthRc : Int
  widthVal : ℕ
  fsRc : Int
  hostNrFeatures : ℕ
  allocStr : ℕ → Bool
  domctlRc : Int

/-- Embedding of `get_cpuid_domain_info`. The caller-supplied feature set is a
buffer `fs : ℕ → ℕ` of declared length `nr_features`; the source's truncation
check reads `featureset[i]` for `i` in `[nr_features, host_nr_features)`, which
for `nr_features < host_nr_features` is past the declared length (the model
simply reads the buffer function there). -/
def get_cpuid_domain_info (env : XcEnv) (featureset : Option (ℕ → ℕ))
    (nr_features : ℕ) : Except Int CpuidDomainInfo :=
  let regs := cpuid env.hw (0, XEN_CPUID_INPUT_UNUSED)
  let vendor :=
    if regs.ebx = 0x756e6547 ∧ regs.ecx = 0x6c65746e ∧ regs.edx = 0x49656e69 then
      VENDOR_INTEL
    else if regs.ebx = 0x68747541 ∧ regs.ecx = 0x444d4163 ∧ regs.edx = 0x69746e65 then
      VENDOR_AMD
    else VENDOR_UNKNOWN
  match env.dominfo with
  | none => .error (-ESRCH)
  | some (hvm, pvh) =>
    if ¬ env.callocOk then .error (-ENOMEM)
    else
      let truncBad :=
        match featureset with
        | none => false
        | some fs =>
          (List.range' nr_features (env.hostNrFeatures - nr_features)).any
            (fun i => fs i ≠ 0)
      if truncBad then .error (-EOPNOTSUPP)
      else if env.xstateRc ≠ 0 then .error env.xstateRc
      else if hvm then
        if env.paeRc ≠ 0 then .error env.paeRc
        else if env.nestedRc ≠ 0 then .error env.nestedRc
        else if featureset.isNone ∧ env.fsRc ≠ 0 then .error env.fsRc
        else
          .ok ⟨vendor, true, pvh, env.xstateMask, false,
               env.paeVal ≠ 0, env.nestedVal ≠ 0⟩
      else
        if env.widthRc ≠ 0 then .error env.widthRc
        else if featureset.isNone ∧ env.fsRc ≠ 0 then .error env.fsRc
        else
          .ok ⟨vendor, false, pvh, env.xstateMask, env.widthVal = 8, false, false⟩

/-! ## Override directive compiler -/

/-- Semantics of C `strchr(alpha, c) != NULL`: `strchr` also matches the
terminating NUL, so a NUL character is always found. -/
def strchr_found (alpha : List Char) (c : Char) : Bool :=
  alpha.contains c || c == Char.ofNat 0

/-- Directive alphabet of `xc_cpuid_check`. -/
def check_alphabet : List Char := ['1', '0', 'x', 's']

/-- Directive alphabet of `xc_cpuid_set`. -/
def set_alphabet : List Char := ['1', '0', 'x', 'k', 's']

/-- Literal character of an applied bit (C `'0' + val`). -/
def bitChar (v : Bool) : Char := if v then '1' else '0'

/-- Inner per-bit loop of `xc_cpuid_check` for one register: `n` iterations
remain, `j` is the current character position (bit `31 - j`), `rawReg` is
`regs[i]` (never written by check mode). Returns the transformed character
list, or `none` on the `goto fail` paths. -/
def check_one_reg_go (cfg : ℕ → Char) (rawReg : ℕ) : ℕ → ℕ → Option (List Char)
  | 0, _ => some []
  | n + 1, j =>
    let c := cfg j
    let val := rawReg.testBit (31 - j)
    if strchr_found check_alphabet c = false ∨ (c = '1' ∧ val = false) ∨
       (c = '0' ∧ val = true) then
      none
    else
      match check_one_reg_go cfg rawReg n (j + 1) with
      | none => none
      | some t => some ((if c = 's' then bitChar val else c) :: t)

/-- The full 32-character check of one register. -/
def check_one_reg (cfg : ℕ → Char) (rawReg : ℕ) : Option (List Char) :=
  check_one_reg_go cfg rawReg 32 0

/-- Outcome of `xc_cpuid_check`: the C return code and the four
`config_transformed` out-pointers. -/
structure CheckResult where
  rc : Int
  transformed : Fin 4 → Option (List Char)

/-- Register loop of `xc_cpuid_check`: processes the registers in `l` in order,
threading the `alloc_str` call counter `a` and the transformed outputs. -/
def check_loop (alloc : ℕ → Bool) (config : Fin 4 → Option (ℕ → Char))
    (regs : Regs) :
    List (Fin 4) → ℕ → (Fin 4 → Option (List Char)) →
    Except Int (Fin 4 → Option (List Char))
  | [], _, tr => .ok tr
  | i :: rest, a, tr =>
    match config i with
    | none => check_loop alloc config regs rest a tr
    | some cfg =>
      if alloc a = false then .error (-ENOMEM)
      else
        match check_one_reg cfg (regs.get i) with
        | none => .error (-EPERM)
        | some t => check_loop alloc config regs rest (a + 1)
                      (Function.update tr i (some t))

/-- Embedding of `xc_cpuid_check`. Both failure labels free and null every
transformed output, so an error leaves all four outputs `none`. -/
def xc_cpuid_check (env : XcEnv) (input : ℕ × ℕ)
    (config : Fin 4 → Option (ℕ → Char)) : CheckResult :=
  let regs := cpuid env.hw input
  match check_loop env.allocStr config regs [0, 1, 2, 3] 0 (fun _ => none) with
  | .error rc => ⟨rc, fun _ => none⟩
  | .ok tr => ⟨0, tr⟩

/-- Inner per-bit loop of `xc_cpuid_set` for one register. Unlike check mode it
mutates `regs[i]` in place (threaded here as `reg`); `val` is read from the
mutated register, exactly as the source does. `'1'` forces 1, `'0'` forces 0,
`'x'` takes the policy bit, and `'k'` and `'s'` leave `val` at the bit read
from `reg`. Returns the final register value and the transformed characters,
or `none` on the `-EINVAL` path. -/
def set_one_reg_go (cfg : ℕ → Char) (polReg : ℕ) :
    ℕ → ℕ → ℕ → Option (ℕ × List Char)
  | 0, _, reg => some (reg, [])
  | n + 1, j, reg =>
    let c := cfg j
    let val := reg.testBit (31 - j)
    let polval := polReg.testBit (31 - j)
    if strchr_found set_alphabet c = false then none
    else
      let v := if c = '1' then true
               else if c = '0' then false
               else if c = 'x' then polval
               else val
      let reg1 := if v then set_bit (31 - j) reg else clear_bit (31 - j) reg
      match set_one_reg_go cfg polReg n (j + 1) reg1 with
      | none => none
      | some (r, t) => some (r, (if c = 's' then bitChar v else c) :: t)

/-- The full 32-character blend of one register. -/
def set_one_reg (cfg : ℕ → Char) (rawReg polReg : ℕ) : Option (ℕ × List Char) :=
  set_one_reg_go cfg polReg 32 0 rawReg

/-- Outcome of `xc_cpuid_set`: the C return code, the four
`config_transformed` out-pointers, and the quadruple handed to
`xc_cpuid_do_domctl` (`none` when the failure happened before programming). -/
structure SetResult where
  rc : Int
  transformed : Fin 4 → Option (List Char)
  programmed : Option Regs

/-- Register loop of `xc_cpuid_set`: a register without a directive is taken
wholesale from `polregs`, one with a directive is blended bit by bit. -/
def set_loop (alloc : ℕ → Bool) (config : Fin 4 → Option (ℕ → Char))
    (polregs : Regs) :
    List (Fin 4) → ℕ → Regs → (Fin 4 → Option (List Char)) →
    Except Int (Regs × (Fin 4 → Option (List Char)))
  | [], _, regs, tr => .ok (regs, tr)
  | i :: rest, a, regs, tr =>
    match config i with
    | none => set_loop alloc config polregs rest a
                (regs.set i (polregs.get i)) tr
    | some cfg =>
      if alloc a = false then .error (-ENOMEM)
      else
        match set_one_reg cfg (regs.get i) (polregs.get i) with
        | none => .error (-EINVAL)
        | some (r, t) => set_loop alloc config polregs rest (a + 1)
                           (regs.set i r) (Function.update tr i (some t))

/-- Embedding of `xc_cpuid_set`. The `fail` label frees and nulls every
transformed output, so any nonzero return leaves all four outputs `none`;
a failure of `xc_cpuid_do_domctl` happens after programming was attempted, so
`programmed` is still reported in that case. -/
def xc_cpuid_set (env : XcEnv) (input : ℕ × ℕ)
    (config : Fin 4 → Option (ℕ → Char)) : SetResult :=
  match get_cpuid_domain_info env none 0 with
  | .error rc => ⟨rc, fun _ => none, none⟩
  | .ok info =>
    let regs := cpuid env.hw input
    let polregs := xc_cpuid_policy env.hw info input regs
    match set_loop env.allocStr config polregs [0, 1, 2, 3] 0 regs (fun _ => none) with
    | .error rc => ⟨rc, fun _ => none, none⟩
    | .ok (fin, tr) =>
      if env.domctlRc = 0 then ⟨0, tr, some fin⟩
      else ⟨env.domctlRc, fun _ => none, some fin⟩

/-! ## Leaf-4 subleaf traversal fragment of `xc_cpuid_apply_policy` -/

/-- The "more cache levels" test of the traversal loop: after computing leaf 4
subleaf `s`, the loop stays on leaf 4 exactly when the low 5 bits of the
policy-filtered eax are nonzero. -/
def leaf4_more (hw : HwOracle) (info : CpuidDomainInfo) (s : ℕ) : Bool :=
  ((xc_cpuid_policy hw info (4, s) (cpuid hw (4, s))).eax &&& 0x1f) ≠ 0

/-- Number of leaf-4 subleaves the traversal visits starting from subleaf `s`,
bounded by `fuel` (the C loop itself is unbounded). -/
def leaf4_visits (hw : HwOracle) (info : CpuidDomainInfo) :
    ℕ → ℕ → ℕ
  | 0, _ => 0
  | fuel + 1, s =>
    1 + (if leaf4_more hw info s then leaf4_visits hw info fuel (s + 1) else 0)

/-! ## Helper lemmas on the bit macros -/

theorem land31_eq_of_lt {p : ℕ} (h : p < 32) : p &&& 31 = p := by
  have h31 : (31 : ℕ) = 2 ^ 5 - 1 := by norm_num
  rw [h31, Nat.and_pow_two_sub_one_eq_mod]
  exact Nat.mod_eq_of_lt h

theorem bitmaskof_eq_pow {p : ℕ} (h : p < 32) : bitmaskof p = 2 ^ p := by
  rw [bitmaskof, land31_eq_of_lt h, Nat.shiftLeft_eq, one_mul]

theorem set_bit_testBit {p : ℕ} (r q : ℕ) (hp : p < 32) :
    (set_bit p r).testBit q = (r.testBit q || decide (p = q)) := by
  rw [set_bit, Nat.testBit_or, bitmaskof_eq_pow hp, Nat.testBit_two_pow]

theorem clear_bit_testBit {p : ℕ} (r q : ℕ) (hp : p < 32) (hq : q < 32) :
    (clear_bit p r).testBit q = (r.testBit q && !(decide (p = q))) := by
  rw [clear_bit, Nat.testBit_and, Nat.testBit_xor, bitmaskof_eq_pow hp,
    Nat.testBit_two_pow]
  have h32 : (0xffffffff : ℕ) = 2 ^ 32 - 1 := by norm_num
  rw [h32, Nat.testBit_two_pow_sub_one]
  simp [hq]

theorem write_bit_testBit_self {p : ℕ} (r : ℕ) (v : Bool) (hp : p < 32) :
    ((if v then set_bit p r else clear_bit p r).testBit p) = v := by
  cases v <;> simp [set_bit_testBit r p hp, clear_bit_testBit r p hp hp]

theorem write_bit_testBit_other {p q : ℕ} (r : ℕ) (v : Bool) (hp : p < 32)
    (hq : q < 32) (hne : p ≠ q) :
    ((if v then set_bit p r else clear_bit p r).testBit q) = r.testBit q := by
  cases v <;> simp [set_bit_testBit r q hp, clear_bit_testBit r q hp hq, hne]

theorem Regs.get_set (r : Regs) (i j : Fin 4) (v : ℕ) :
    (r.set i v).get j = if j = i then v else r.get j := by
  fin_cases i <;> fin_cases j <;> simp [Regs.set, Regs.get]

/-! ## Lemmas on the per-bit loops -/

theorem set_one_reg_go_testBit_high (cfg : ℕ → Char) (pol : ℕ) :
    ∀ (n j reg r : ℕ) (t : List Char), j + n ≤ 32 →
      set_one_reg_go cfg pol n j reg = some (r, t) →
      ∀ b, 31 - j < b → b < 32 → r.testBit b = reg.testBit b := by
  intro n
  induction n with
  | zero =>
    intro j reg r t _ hgo b _ _
    simp only [set_one_reg_go] at hgo
    obtain ⟨rfl, rfl⟩ := Prod.mk.injEq .. ▸ (Option.some.injEq .. ▸ hgo)
    rfl
  | succ m ih =>
    intro j reg r t hle hgo b hb hb32
    simp only [set_one_reg_go] at hgo
    by_cases hc : strchr_found set_alphabet (cfg j) = false
    · simp [hc] at hgo
    · simp only [hc, if_false] at hgo
      rcases hrec : set_one_reg_go cfg pol m (j + 1)
          (if (if cfg j = '1' then true
               else if cfg j = '0' then false
               else if cfg j = 'x' then pol.testBit (31 - j)
               else reg.testBit (31 - j)) then
            set_bit (31 - j) reg else clear_bit (31 - j) reg) with _ | p
      · rw [hrec] at hgo
        simp at hgo
      · rw [hrec] at hgo
        obtain ⟨rr, tt⟩ := p
        injection hgo with hgo1
        injection hgo1 with h1 h2
        have hr := ih (j + 1) _ rr tt (by omega) hrec b (by omega) hb32
        rw [← h1, hr]
        exact write_bit_testBit_other reg _ (by omega) hb32 (by omega)

theorem set_one_reg_go_testBit (cfg : ℕ → Char) (pol : ℕ) :
    ∀ (n j reg r : ℕ) (t : List Char), j + n ≤ 32 →
      set_one_reg_go cfg pol n j reg = some (r, t) →
      ∀ k, k < n →
        r.testBit (31 - (j + k)) =
          (if cfg (j + k) = '1' then true
           else if cfg (j + k) = '0' then false
           else if cfg (j + k) = 'x' then pol.testBit (31 - (j + k))
           else reg.testBit (31 - (j + k))) := by
  intro n
  induction n with
  | zero => intro j reg r t hle hgo k hk; omega
  | succ m ih =>
    intro j reg r t hle hgo k hk
    simp only [set_one_reg_go] at hgo
    by_cases hc : strchr_found set_alphabet (cfg j) = false
    · simp [hc] at hgo
    · simp only [hc, if_false] at hgo
      rcases hrec : set_one_reg_go cfg pol m (j + 1)
          (if (if cfg j = '1' then true
               else if cfg j = '0' then false
               else if cfg j = 'x' then pol.testBit (31 - j)
               else reg.testBit (31 - j)) then
            set_bit (31 - j) reg else clear_bit (31 - j) reg) with _ | p
      · rw [hrec] at hgo
        simp at hgo
      · rw [hrec] at hgo
        obtain ⟨rr, tt⟩ := p
        injection hgo with hgo1
        injection hgo1 with h1 h2
        rcases k with _ | kk
        · simp only [Nat.add_zero]
          rw [← h1]
          rcases m with _ | mm
          · simp only [set_one_reg_go] at hrec
            injection hrec with hrec1
            injection hrec1 with hr1 hr2
            rw [← hr1]
            exact write_bit_testBit_self reg _ (by omega)
          · have hh := set_one_reg_go_testBit_high cfg pol (mm + 1) (j + 1) _ rr tt
              (by omega) hrec (31 - j) (by omega) (by omega)
            rw [hh]
            exact write_bit_testBit_self reg _ (by omega)
        · have hall := ih (j + 1) _ rr tt (by omega) hrec kk (by omega)
          have hidx : j + 1 + kk = j + (kk + 1) := by omega
          rw [hidx] at hall
          have hother := write_bit_testBit_other (r := reg)
            (v := if cfg j = '1' then true
                  else if cfg j = '0' then false
                  else if cfg j = 'x' then pol.testBit (31 - j)
                  else reg.testBit (31 - j))
            (p := 31 - j) (q := 31 - (j + (kk + 1)))
            (by omega) (by omega) (by omega)
          rw [hother] at hall
          rw [← h1]
          exact hall

/-- Acceptance of one check-mode directive character against the raw bit, as
the negation of the `goto fail` condition in the inner loop. -/
def check_bit_ok (c : Char) (b : Bool) : Prop :=
  strchr_found check_alphabet c = true ∧ ¬(c = '1' ∧ b = false) ∧ ¬(c = '0' ∧ b = true)

instance (c : Char) (b : Bool) : Decidable (check_bit_ok c b) := by
  unfold check_bit_ok
  infer_instance

theorem check_one_reg_go_eq (cfg : ℕ → Char) (raw : ℕ) :
    ∀ (n j : ℕ) (t : List Char),
      check_one_reg_go cfg raw n j = some t →
      t = (List.range' j n).map
            (fun jj => if cfg jj = 's' then bitChar (raw.testBit (31 - jj))
                       else cfg jj) := by
  intro n
  induction n with
  | zero =>
    intro j t h
    simp only [check_one_reg_go] at h
    injection h with h1
    simp [← h1]
  | succ m ih =>
    intro j t h
    simp only [check_one_reg_go] at h
    by_cases hc : (strchr_found check_alphabet (cfg j) = false ∨
        (cfg j = '1' ∧ raw.testBit (31 - j) = false) ∨
        (cfg j = '0' ∧ raw.testBit (31 - j) = true))
    · rw [if_pos hc] at h
      exact absurd h (by simp)
    · rw [if_neg hc] at h
      rcases hrec : check_one_reg_go cfg raw m (j + 1) with _ | tt
      · rw [hrec] at h
        exact absurd h (by simp)
      · rw [hrec] at h
        injection h with h1
        rw [← h1, ih (j + 1) tt hrec, List.range'_succ]
        simp

theorem check_one_reg_go_isSome_iff (cfg : ℕ → Char) (raw : ℕ) :
    ∀ (n j : ℕ),
      (check_one_reg_go cfg raw n j).isSome = true ↔
        ∀ k < n, check_bit_ok (cfg (j + k)) (raw.testBit (31 - (j + k))) := by
  intro n
  induction n with
  | zero =>
    intro j
    simp [check_one_reg_go]
  | succ m ih =>
    intro j
    simp only [check_one_reg_go]
    by_cases hc : (strchr_found check_alphabet (cfg j) = false ∨
        (cfg j = '1' ∧ raw.testBit (31 - j) = false) ∨
        (cfg j = '0' ∧ raw.testBit (31 - j) = true))
    · rw [if_pos hc]
      simp only [Option.isSome_none, Bool.false_eq_true, false_iff]
      intro hall
      have h0 := hall 0 (by omega)
      rw [Nat.add_zero] at h0
      obtain ⟨ha, hb, hd⟩ := h0
      rcases hc with hc | hc | hc
      · rw [ha] at hc
        exact absurd hc (by simp)
      · exact hb hc
      · exact hd hc
    · rw [if_neg hc]
      constructor
      · intro hsome k hk
        rcases hrec : check_one_reg_go cfg raw m (j + 1) with _ | tt
        · rw [hrec] at hsome
          simp at hsome
        · rcases k with _ | kk
          · rw [Nat.add_zero]
            refine ⟨?_, ?_, ?_⟩
            · rcases hfound : strchr_found check_alphabet (cfg j) with _ | _
              · exact absurd (Or.inl hfound) hc
              · rfl
            · intro ⟨h1, h2⟩
              exact hc (Or.inr (Or.inl ⟨h1, h2⟩))
            · intro ⟨h1, h2⟩
              exact hc (Or.inr (Or.inr ⟨h1, h2⟩))
          · have := (ih (j + 1)).mp (by rw [hrec]; rfl) kk (by omega)
            have hidx : j + 1 + kk = j + (kk + 1) := by omega
            rwa [hidx] at this
      · intro hall
        rcases hrec : check_one_reg_go cfg raw m (j + 1) with _ | tt
        · exfalso
          have : ∀ k < m, check_bit_ok (cfg (j + 1 + k))
              (raw.testBit (31 - (j + 1 + k))) := by
            intro k hk
            have hidx : j + 1 + k = j + (k + 1) := by omega
            rw [hidx]
            exact hall (k + 1) (by omega)
          have := (ih (j + 1)).mpr this
          rw [hrec] at this
          simp at this
        · rfl

/-! ## Lemmas on the register loops -/

theorem check_loop_error_cases (alloc : ℕ → Bool)
    (config : Fin 4 → Option (ℕ → Char)) (regs : Regs) :
    ∀ (l : List (Fin 4)) (a : ℕ) (tr0 : Fin 4 → Option (List Char)) (rc : Int),
      check_loop alloc config regs l a tr0 = .error rc →
      rc = -EPERM ∨ rc = -ENOMEM := by
  intro l
  induction l with
  | nil =>
    intro a tr0 rc h
    simp [check_loop] at h
  | cons i0 rest ih =>
    intro a tr0 rc h
    simp only [check_loop] at h
    split at h
    · exact ih _ _ rc h
    · split at h
      · injection h with h1
        exact Or.inr h1.symm
      · split at h
        · injection h with h1
          exact Or.inl h1.symm
        · exact ih _ _ rc h

theorem check_loop_pres (alloc : ℕ → Bool) (config : Fin 4 → Option (ℕ → Char))
    (regs : Regs) :
    ∀ (l : List (Fin 4)) (a : ℕ) (tr0 tr : Fin 4 → Option (List Char)) (i : Fin 4),
      (i ∉ l ∨ config i = none) →
      check_loop alloc config regs l a tr0 = .ok tr → tr i = tr0 i := by
  intro l
  induction l with
  | nil =>
    intro a tr0 tr i hd h
    simp only [check_loop] at h
    injection h with h1
    rw [← h1]
  | cons i0 rest ih =>
    intro a tr0 tr i hd h
    have hd' : i ∉ rest ∨ config i = none := by
      rcases hd with hd | hd
      · exact Or.inl (fun hm => hd (List.mem_cons_of_mem _ hm))
      · exact Or.inr hd
    simp only [check_loop] at h
    split at h
    · exact ih _ _ _ i hd' h
    · rename_i cfg hci
      split at h
      · exact absurd h (by simp)
      · split at h
        · exact absurd h (by simp)
        · have hne : i ≠ i0 := by
            rcases hd with hd | hd
            · intro he
              exact hd (he ▸ List.mem_cons_self i0 rest)
            · intro he
              rw [he, hci] at hd
              exact absurd hd (by simp)
          have hpres := ih _ _ _ i hd' h
          rw [hpres, Function.update_noteq hne]

theorem check_loop_mem_some (alloc : ℕ → Bool)
    (config : Fin 4 → Option (ℕ → Char)) (regs : Regs) :
    ∀ (l : List (Fin 4)) (a : ℕ) (tr0 tr : Fin 4 → Option (List Char))
      (i : Fin 4) (cfg : ℕ → Char), l.Nodup → i ∈ l → config i = some cfg →
      check_loop alloc config regs l a tr0 = .ok tr →
      ∃ t, check_one_reg cfg (regs.get i) = some t ∧ tr i = some t := by
  intro l
  induction l with
  | nil =>
    intro a tr0 tr i cfg _ hm
    exact absurd hm (by simp)
  | cons i0 rest ih =>
    intro a tr0 tr i cfg hnd hm hcfg h
    simp only [check_loop] at h
    rcases List.mem_cons.mp hm with he | hm'
    · subst he
      split at h
      · rename_i hci
        rw [hcfg] at hci
        exact absurd hci (by simp)
      · rename_i cfg0 hci
        rw [hcfg] at hci
        injection hci with hci1
        subst hci1
        split at h
        · exact absurd h (by simp)
        · split at h
          · exact absurd h (by simp)
          · rename_i t hcr
            refine ⟨t, hcr, ?_⟩
            have hnotin : i ∉ rest := (List.nodup_cons.mp hnd).1
            have hpres := check_loop_pres alloc config regs rest _ _ tr i
              (Or.inl hnotin) h
            rw [hpres, Function.update_same]
    · split at h
      · exact ih _ _ _ i cfg (List.nodup_cons.mp hnd).2 hm' hcfg h
      · split at h
        · exact absurd h (by simp)
        · split at h
          · exact absurd h (by simp)
          · exact ih _ _ _ i cfg (List.nodup_cons.mp hnd).2 hm' hcfg h

theorem check_loop_ok_of_all (alloc : ℕ → Bool)
    (config : Fin 4 → Option (ℕ → Char)) (regs : Regs)
    (hal : ∀ a, alloc a = true) :
    ∀ (l : List (Fin 4)) (a : ℕ) (tr0 : Fin 4 → Option (List Char)),
      (∀ i ∈ l, ∀ cfg, config i = some cfg →
        (check_one_reg cfg (regs.get i)).isSome = true) →
      ∃ tr, check_loop alloc config regs l a tr0 = .ok tr := by
  intro l
  induction l with
  | nil =>
    intro a tr0 _
    exact ⟨tr0, rfl⟩
  | cons i0 rest ih =>
    intro a tr0 hall
    simp only [check_loop]
    split
    · exact ih _ _ (fun i hm => hall i (List.mem_cons_of_mem _ hm))
    · rename_i cfg hci
      rw [if_neg (by rw [hal a]; simp)]
      have hsome := hall i0 (List.mem_cons_self i0 rest) cfg hci
      rcases hcr : check_one_reg cfg (regs.get i0) with _ | t
      · rw [hcr] at hsome
        simp at hsome
      · exact ih _ _ (fun i hm => hall i (List.mem_cons_of_mem _ hm))

theorem set_loop_error_cases (alloc : ℕ → Bool)
    (config : Fin 4 → Option (ℕ → Char)) (polregs : Regs) :
    ∀ (l : List (Fin 4)) (a : ℕ) (regs : Regs)
      (tr0 : Fin 4 → Option (List Char)) (rc : Int),
      set_loop alloc config polregs l a regs tr0 = .error rc →
      rc = -EINVAL ∨ rc = -ENOMEM := by
  intro l
  induction l with
  | nil =>
    intro a regs tr0 rc h
    simp [set_loop] at h
  | cons i0 rest ih =>
    intro a regs tr0 rc h
    simp only [set_loop] at h
    split at h
    · exact ih _ _ _ rc h
    · split at h
      · injection h with h1
        exact Or.inr h1.symm
      · split at h
        · injection h with h1
          exact Or.inl h1.symm
        · exact ih _ _ _ rc h

theorem set_loop_tr_pres (alloc : ℕ → Bool)
    (config : Fin 4 → Option (ℕ → Char)) (polregs : Regs) :
    ∀ (l : List (Fin 4)) (a : ℕ) (regs : Regs)
      (tr0 tr : Fin 4 → Option (List Char)) (fin : Regs) (i : Fin 4),
      (i ∉ l ∨ config i = none) →
      set_loop alloc config polregs l a regs tr0 = .ok (fin, tr) →
      tr i = tr0 i := by
  intro l
  induction l with
  | nil =>
    intro a regs tr0 tr fin i hd h
    simp only [set_loop] at h
    injection h with h1
    injection h1 with h2 h3
    rw [← h3]
  | cons i0 rest ih =>
    intro a regs tr0 tr fin i hd h
    have hd' : i ∉ rest ∨ config i = none := by
      rcases hd with hd | hd
      · exact Or.inl (fun hm => hd (List.mem_cons_of_mem _ hm))
      · exact Or.inr hd
    simp only [set_loop] at h
    split at h
    · exact ih _ _ _ _ _ i hd' h
    · rename_i cfg hci
      split at h
      · exact absurd h (by simp)
      · split at h
        · exact absurd h (by simp)
        · have hne : i ≠ i0 := by
            rcases hd with hd | hd
            · intro he
              exact hd (he ▸ List.mem_cons_self i0 rest)
            · intro he
              rw [he, hci] at hd
              exact absurd hd (by simp)
          have hpres := ih _ _ _ _ _ i hd' h
          rw [hpres, Function.update_noteq hne]

theorem set_loop_get_pres (alloc : ℕ → Bool)
    (config : Fin 4 → Option (ℕ → Char)) (polregs : Regs) :
    ∀ (l : List (Fin 4)) (a : ℕ) (regs : Regs)
      (tr0 tr : Fin 4 → Option (List Char)) (fin : Regs) (i : Fin 4),
      i ∉ l →
      set_loop alloc config polregs l a regs tr0 = .ok (fin, tr) →
      fin.get i = regs.get i := by
  intro l
  induction l with
  | nil =>
    intro a regs tr0 tr fin i hd h
    simp only [set_loop] at h
    injection h with h1
    injection h1 with h2 h3
    rw [← h2]
  | cons i0 rest ih =>
    intro a regs tr0 tr fin i hd h
    have hne : i ≠ i0 := fun he => hd (he ▸ List.mem_cons_self i0 rest)
    have hd' : i ∉ rest := fun hm => hd (List.mem_cons_of_mem _ hm)
    simp only [set_loop] at h
    split at h
    · have hpres := ih _ _ _ _ _ i hd' h
      rw [hpres, Regs.get_set, if_neg hne]
    · split at h
      · exact absurd h (by simp)
      · split at h
        · exact absurd h (by simp)
        · have hpres := ih _ _ _ _ _ i hd' h
          rw [hpres, Regs.get_set, if_neg hne]

theorem set_loop_mem_none (alloc : ℕ → Bool)
    (config : Fin 4 → Option (ℕ → Char)) (polregs : Regs) :
    ∀ (l : List (Fin 4)) (a : ℕ) (regs : Regs)
      (tr0 tr : Fin 4 → Option (List Char)) (fin : Regs) (i : Fin 4),
      l.Nodup → i ∈ l → config i = none →
      set_loop alloc config polregs l a regs tr0 = .ok (fin, tr) →
      fin.get i = polregs.get i := by
  intro l
  induction l with
  | nil =>
    intro a regs tr0 tr fin i _ hm
    exact absurd hm (by simp)
  | cons i0 rest ih =>
    intro a regs tr0 tr fin i hnd hm hcfg h
    simp only [set_loop] at h
    rcases List.mem_cons.mp hm with he | hm'
    · subst he
      split at h
      · have hnotin : i ∉ rest := (List.nodup_cons.mp hnd).1
        have hpres := set_loop_get_pres alloc config polregs rest _ _ _ _ fin i
          hnotin h
        rw [hpres, Regs.get_set, if_pos rfl]
      · rename_i cfg hci
        rw [hcfg] at hci
        exact absurd hci (by simp)
    · split at h
      · exact ih _ _ _ _ _ i (List.nodup_cons.mp hnd).2 hm' hcfg h
      · split at h
        · exact absurd h (by simp)
        · split at h
          · exact absurd h (by simp)
          · exact ih _ _ _ _ _ i (List.nodup_cons.mp hnd).2 hm' hcfg h

theorem set_loop_mem_some (alloc : ℕ → Bool)
    (config : Fin 4 → Option (ℕ → Char)) (polregs : Regs) :
    ∀ (l : List (Fin 4)) (a : ℕ) (regs : Regs)
      (tr0 tr : Fin 4 → Option (List Char)) (fin : Regs) (i : Fin 4)
      (cfg : ℕ → Char),
      l.Nodup → i ∈ l → config i = some cfg →
      set_loop alloc config polregs l a regs tr0 = .ok (fin, tr) →
      ∃ r t, set_one_reg cfg (regs.get i) (polregs.get i) = some (r, t) ∧
             fin.get i = r ∧ tr i = some t := by
  intro l
  induction l with
  | nil =>
    intro a regs tr0 tr fin i cfg _ hm
    exact absurd hm (by simp)
  | cons i0 rest ih =>
    intro a regs tr0 tr fin i cfg hnd hm hcfg h
    simp only [set_loop] at h
    rcases List.mem_cons.mp hm with he | hm'
    · subst he
      split at h
      · rename_i hci
        rw [hcfg] at hci
        exact absurd hci (by simp)
      · rename_i cfg0 hci
        rw [hcfg] at hci
        injection hci with hci1
        subst hci1
        split at h
        · exact absurd h (by simp)
        · split at h
          · exact absurd h (by simp)
          · rename_i r t hcr
            have hnotin : i ∉ rest := (List.nodup_cons.mp hnd).1
            have hget := set_loop_get_pres alloc config polregs rest _ _ _ _ fin i
              hnotin h
            have htr := set_loop_tr_pres alloc config polregs rest _ _ _ _ fin i
              (Or.inl hnotin) h
            refine ⟨r, t, hcr, ?_, ?_⟩
            · rw [hget, Regs.get_set, if_pos rfl]
            · rw [htr, Function.update_same]
    · have hrest : rest.Nodup := (List.nodup_cons.mp hnd).2
      have hne : i ≠ i0 := by
        intro he
        exact (List.nodup_cons.mp hnd).1 (he ▸ hm')
      split at h
      · have := ih _ _ _ _ _ i cfg hrest hm' hcfg h
        rwa [Regs.get_set, if_neg hne] at this
      · split at h
        · exact absurd h (by simp)
        · split at h
          · exact absurd h (by simp)
          · have := ih _ _ _ _ _ i cfg hrest hm' hcfg h
            rwa [Regs.get_set, if_neg hne] at this

theorem check_loop_error_eperm (alloc : ℕ → Bool)
    (config : Fin 4 → Option (ℕ → Char)) (regs : Regs)
    (hal : ∀ a, alloc a = true) :
    ∀ (l : List (Fin 4)) (a : ℕ) (tr0 : Fin 4 → Option (List Char)) (rc : Int),
      check_loop alloc config regs l a tr0 = .error rc → rc = -EPERM := by
  intro l
  induction l with
  | nil =>
    intro a tr0 rc h
    simp [check_loop] at h
  | cons i0 rest ih =>
    intro a tr0 rc h
    simp only [check_loop] at h
    split at h
    · exact ih _ _ rc h
    · split at h
      · rename_i hfalse
        rw [hal a] at hfalse
        exact absurd hfalse (by simp)
      · split at h
        · injection h with h1
          exact h1.symm
        · exact ih _ _ rc h

theorem get_cpuid_domain_info_error_ne (env : XcEnv) (featureset : Option (ℕ → ℕ))
    (nr : ℕ) (rc : Int) :
    get_cpuid_domain_info env featureset nr = .error rc → rc ≠ 0 := by
  intro h
  simp only [get_cpuid_domain_info] at h
  split at h
  · injection h with h1
    rw [← h1]
    decide
  · split at h
    · injection h with h1
      rw [← h1]
      decide
    · split at h
      · injection h with h1
        rw [← h1]
        decide
      · split at h
        · rename_i hx
          injection h with h1
          rw [← h1]
          exact hx
        · split at h
          · split at h
            · rename_i hx
              injection h with h1
              rw [← h1]
              exact hx
            · split at h
              · rename_i hx
                injection h with h1
                rw [← h1]
                exact hx
              · split at h
                · rename_i hx
                  injection h with h1
                  rw [← h1]
                  exact hx.2
                · exact absurd h (by simp)
          · split at h
            · rename_i hx
              injection h with h1
              rw [← h1]
              exact hx
            · split at h
              · rename_i hx
                injection h with h1
                rw [← h1]
                exact hx.2
              · exact absurd h (by simp)

theorem fin4_mem (i : Fin 4) : i ∈ ([0, 1, 2, 3] : List (Fin 4)) := by
  fin_cases i <;> decide

theorem fin4_nodup : ([0, 1, 2, 3] : List (Fin 4)).Nodup := by decide

/-! ## Concrete fixtures used by witnesses and counterexamples -/

/-- Hardware returning zeros everywhere. -/
def hwZero : HwOracle := fun _ _ => ⟨0, 0, 0, 0⟩

/-- Hardware reporting bit 31 of eax on the first hypervisor-reserved leaf. -/
def hwHypLeaf : HwOracle :=
  fun l _ => if l = 0x40000000 then ⟨0x80000000, 0, 0, 0⟩ else ⟨0, 0, 0, 0⟩

/-- Hardware whose leaf 4 subleaf 0 reports one more cache level. -/
def hwLeaf4 : HwOracle :=
  fun l s => if l = 4 ∧ s = 0 then ⟨1, 0, 0, 0⟩ else ⟨0, 0, 0, 0⟩

/-- Hardware reporting bit 31 of every register on leaf 1. -/
def hwLeaf1 : HwOracle :=
  fun l _ => if l = 1 then ⟨0x80000000, 0, 0, 0⟩ else ⟨0, 0, 0, 0⟩

def infoIntelPV : CpuidDomainInfo := ⟨VENDOR_INTEL, false, false, 0, true, false, false⟩

def infoAmdPV : CpuidDomainInfo := ⟨VENDOR_AMD, false, false, 0, true, false, false⟩

def infoAmdHVM : CpuidDomainInfo := ⟨VENDOR_AMD, true, false, 0, false, true, false⟩

/-- The context that `get_cpuid_domain_info` resolves from `envHyp`. -/
def infoHyp : CpuidDomainInfo := ⟨VENDOR_UNKNOWN, true, false, 0, false, true, false⟩

/-- An environment where every external call succeeds; the domain is HVM with
PAE on, nested virtualization off, and a zero xstate mask. -/
def envHyp : XcEnv :=
  { hw := hwHypLeaf, dominfo := some (true, false), callocOk := true,
    xstateRc := 0, xstateMask := 0, paeRc := 0, paeVal := 1,
    nestedRc := 0, nestedVal := 0, widthRc := 0, widthVal := 8,
    fsRc := 0, hostNrFeatures := 1, allocStr := fun _ => true, domctlRc := 0 }

/-- The same environment with leaf-1 hardware, for check-mode fixtures. -/
def envChk : XcEnv := { envHyp with hw := hwLeaf1 }

/-- An environment whose domain lookup fails (`-ESRCH`). -/
def envNoDom : XcEnv := { envHyp with dominfo := none }

/-- A PV environment with a one-entry host feature set. -/
def envTrunc : XcEnv :=
  { envHyp with hw := hwZero, dominfo := some (false, false) }

/-- A caller-supplied feature-set buffer of declared length 2 whose second
entry (beyond the one-entry host count) is nonzero. -/
def fsLong : ℕ → ℕ := fun i => if i = 1 then 7 else 0

def cfgSKf : ℕ → Char := fun j => if j = 0 then 's' else 'k'

def cfgSK : Fin 4 → Option (ℕ → Char) :=
  fun i => if i = 0 then some cfgSKf else none

def cfgAllXf : ℕ → Char := fun _ => 'x'

def cfgAllX : Fin 4 → Option (ℕ → Char) :=
  fun i => if i = 0 then some cfgAllXf else none

def cfgChkSf : ℕ → Char := fun j => if j = 0 then 's' else 'x'

def cfgChkS : Fin 4 → Option (ℕ → Char) :=
  fun i => if i = 0 then some cfgChkSf else none

def cfgChkZf : ℕ → Char := fun j => if j = 0 then 'z' else 'x'

def cfgChkZ : Fin 4 → Option (ℕ → Char) :=
  fun i => if i = 0 then some cfgChkZf else none

/-! ## Claim theorems -/

/-- Output shape asserted by claim C8 for hypervisor-reserved leaves: all
registers zeroed except the caller-visible sub-leaf-count field EAX[7:0],
which is preserved from the input quadruple. Definition follows the claim's
words, for comparison with the code. -/
def hypervisor_leaf_claim_output (raw : Regs) : Regs :=
  ⟨raw.eax &&& 0xff, 0, 0, 0⟩

/-- Claim C8, counterexample: on a hypervisor-reserved leaf the Policy Engine
zeroes the whole quadruple, including the sub-leaf-count field EAX[7:0]; at raw
eax = 5 the claimed output (eax = 5) differs from the code's output (eax = 0). -/
theorem c8_hypervisor_leaf_counterexample :
    ((0x40000000 : ℕ) &&& 0xffff0000 = 0x40000000) ∧
    xc_cpuid_policy hwZero infoAmdHVM (0x40000000, 0) ⟨5, 0, 0, 0⟩ = ⟨0, 0, 0, 0⟩ ∧
    xc_cpuid_policy hwZero infoAmdHVM (0x40000000, 0) ⟨5, 0, 0, 0⟩ ≠
      hypervisor_leaf_claim_output ⟨5, 0, 0, 0⟩ := by
  decide

/-- Claim C8, amended: for every leaf whose top 16 bits equal the 0x4000
sentinel, the Policy Engine output is the all-zero quadruple (the sub-leaf-count
field included), regardless of guest type, vendor and raw input. -/
theorem hypervisor_leaf_fully_zeroed (hw : HwOracle) (info : CpuidDomainInfo)
    (input : ℕ × ℕ) (raw : Regs)
    (h : input.1 &&& 0xffff0000 = 0x40000000) :
    xc_cpuid_policy hw info input raw = ⟨0, 0, 0, 0⟩ := by
  simp only [xc_cpuid_policy]
  rw [if_pos h]

theorem hypervisor_leaf_fully_zeroed_witness :
    ((0x40000123 : ℕ) &&& 0xffff0000 = 0x40000000) ∧
    xc_cpuid_policy hwZero infoIntelPV (0x40000123, 7) ⟨1, 2, 3, 4⟩ = ⟨0, 0, 0, 0⟩ :=
  ⟨by decide,
   hypervisor_leaf_fully_zeroed hwZero infoIntelPV (0x40000123, 7) ⟨1, 2, 3, 4⟩ (by decide)⟩

/-- Claim C4: with a zero extended-state mask, the Policy Engine output for
leaf 0x0D is the all-zero quadruple for every subleaf, regardless of the raw
quadruple, the hardware oracle, the guest type and the vendor. -/
theorem xsave_zero_mask_leaf_zero (hw : HwOracle) (info : CpuidDomainInfo)
    (s : ℕ) (raw : Regs) (hmask : info.xfeature_mask = 0) :
    xc_cpuid_policy hw info (0xd, s) raw = ⟨0, 0, 0, 0⟩ := by
  rcases info with ⟨v, hvm, pvh, mask, pv64, pae, nested⟩
  obtain rfl : mask = 0 := hmask
  cases hvm <;> cases v <;>
    simp [xc_cpuid_policy, xc_cpuid_hvm_policy, xc_cpuid_pv_policy,
      xc_cpuid_config_xsave, amd_xc_cpuid_policy, intel_xc_cpuid_policy]

theorem xsave_zero_mask_leaf_zero_witness :
    infoAmdHVM.xfeature_mask = 0 ∧
    xc_cpuid_policy hwZero infoAmdHVM (0xd, 5) ⟨9, 9, 9, 9⟩ = ⟨0, 0, 0, 0⟩ :=
  ⟨rfl, xsave_zero_mask_leaf_zero hwZero infoAmdHVM 5 ⟨9, 9, 9, 9⟩ rfl⟩

/-- Claim C9, counterexample: for an AMD PV context the AMD vendor pass never
runs (it is called only from the HVM policy), so leaf-4 eax passes through raw
and the enumeration visits two subleaves when hardware reports a second cache
level. -/
theorem c9_amd_pv_leaf4_counterexample :
    infoAmdPV.vendor = VENDOR_AMD ∧
    leaf4_visits hwLeaf4 infoAmdPV 64 0 = 2 := by
  decide

/-- Claim C9, amended: for every AMD *HVM* context the leaf-4 sub-leaf
enumeration visits exactly one sub-leaf, for any hardware oracle and any
starting subleaf — the AMD vendor pass zeroes eax, so the low-5-bits
"more levels" signal read from the policy-filtered result is false. -/
theorem amd_hvm_leaf4_single_subleaf (hw : HwOracle) (info : CpuidDomainInfo)
    (fuel s : ℕ) (hv : info.vendor = VENDOR_AMD) (hh : info.hvm = true) :
    leaf4_visits hw info (fuel + 1) s = 1 := by
  have hmore : leaf4_more hw info s = false := by
    simp [leaf4_more, xc_cpuid_policy, xc_cpuid_hvm_policy, amd_xc_cpuid_policy,
      hv, hh]
  simp [leaf4_visits, hmore]

theorem amd_hvm_leaf4_single_subleaf_witness :
    infoAmdHVM.vendor = VENDOR_AMD ∧ infoAmdHVM.hvm = true ∧
    leaf4_visits hwLeaf4 infoAmdHVM (63 + 1) 0 = 1 :=
  ⟨rfl, rfl, amd_hvm_leaf4_single_subleaf hwLeaf4 infoAmdHVM 63 0 rfl rfl⟩

/-- Leaves carrying a `case` label in `xc_cpuid_hvm_policy` (transforming rules
plus the opaque passthrough list). -/
def hvm_ruled_leaves : List ℕ :=
  [0x00000000, 0x00000001, 0x00000007, 0x0000000d, 0x80000000, 0x80000001,
   0x80000007, 0x80000008, 0x00000002, 0x00000004, 0x0000000a, 0x80000002,
   0x80000003, 0x80000004, 0x80000005, 0x80000006, 0x8000000a, 0x8000001c]

/-- Leaves carrying a `case` label in `xc_cpuid_pv_policy`. -/
def pv_ruled_leaves : List ℕ :=
  [0x00000001, 0x00000007, 0x0000000d, 0x80000001, 0x00000005, 0x0000000a,
   0x0000000b, 0x8000000a, 0x8000001b, 0x8000001c, 0x8000001e]

/-- Claim C2, counterexample: leaf 6 has no rule in either guest-type table,
yet for a PV context the Policy Engine passes the raw quadruple through
unmodified instead of zeroing it. -/
theorem c2_pv_passthrough_counterexample :
    infoIntelPV.hvm = false ∧
    (6 : ℕ) ∉ hvm_ruled_leaves ∧ (6 : ℕ) ∉ pv_ruled_leaves ∧
    xc_cpuid_policy hwZero infoIntelPV (6, 0) ⟨1, 2, 3, 4⟩ = ⟨1, 2, 3, 4⟩ ∧
    (⟨1, 2, 3, 4⟩ : Regs) ≠ ⟨0, 0, 0, 0⟩ := by
  decide

/-- Claim C2, amended: outside the hypervisor-reserved range, a leaf matching
no `case` label of the guest-type rule table is fully zeroed for HVM contexts
(for every vendor and raw quadruple), while for PV contexts such a leaf is
passed through unmodified rather than zeroed. -/
theorem default_leaf_policy (hw : HwOracle) (info : CpuidDomainInfo)
    (input : ℕ × ℕ) (raw : Regs) (hb : input.1 < 2 ^ 32)
    (hns : input.1 &&& 0xffff0000 ≠ 0x40000000) :
    (info.hvm = true → input.1 ∉ hvm_ruled_leaves →
      xc_cpuid_policy hw info input raw = ⟨0, 0, 0, 0⟩) ∧
    (info.hvm = false → input.1 ∉ pv_ruled_leaves →
      xc_cpuid_policy hw info input raw = raw) := by
  obtain ⟨L, s⟩ := input
  dsimp only at hb hns
  constructor
  · intro hhvm hmem
    simp only [hvm_ruled_leaves, List.mem_cons, List.not_mem_nil, or_false] at hmem
    push_neg at hmem
    obtain ⟨q0, q1, q7, qD, qE0, qE1, qE7, qE8, q2, q4, qA, qN2, qN3, qN4,
      qE5, qE6, qEA, qEC⟩ := hmem
    simp only [xc_cpuid_policy]
    rw [if_neg hns, if_pos hhvm]
    cases hv : info.vendor <;>
      simp [xc_cpuid_hvm_policy, amd_xc_cpuid_policy, intel_xc_cpuid_policy,
        q0, q1, q7, qD, qE0, qE1, qE7, qE8, q2, q4, qA, qN2, qN3, qN4,
        qE5, qE6, qEA, qEC]
  · intro hhvm hmem
    simp only [pv_ruled_leaves, List.mem_cons, List.not_mem_nil, or_false] at hmem
    push_neg at hmem
    obtain ⟨p1, p7, pD, pE1, p5, pA, pB, pEA, pEB, pEC, pEE⟩ := hmem
    simp only [xc_cpuid_policy]
    rw [if_neg hns, if_neg (by simp [hhvm])]
    have hand : L &&& 0x7fffffff = L % 2 ^ 31 := by
      have h31 : (0x7fffffff : ℕ) = 2 ^ 31 - 1 := by norm_num
      rw [h31, Nat.and_pow_two_sub_one_eq_mod]
    have hnot1 : ¬(L &&& 0x7fffffff = 0x00000001) := by
      rw [hand]
      have h231 : (2 : ℕ) ^ 31 = 2147483648 := by norm_num
      have h232 : (2 : ℕ) ^ 32 = 4294967296 := by norm_num
      rw [h231]
      rw [h232] at hb
      omega
    simp [xc_cpuid_pv_policy, hnot1, p1, p7, pD, pE1, p5, pA, pB, pEA, pEB,
      pEC, pEE]

theorem default_leaf_policy_witness :
    ((6 : ℕ) < 2 ^ 32 ∧ (6 : ℕ) &&& 0xffff0000 ≠ 0x40000000 ∧
     infoAmdHVM.hvm = true ∧ (6 : ℕ) ∉ hvm_ruled_leaves) ∧
    xc_cpuid_policy hwZero infoAmdHVM (6, 0) ⟨1, 2, 3, 4⟩ = ⟨0, 0, 0, 0⟩ :=
  ⟨⟨by norm_num, by decide, rfl, by decide⟩,
   (default_leaf_policy hwZero infoAmdHVM (6, 0) ⟨1, 2, 3, 4⟩ (by norm_num)
     (by decide)).1 rfl (by decide)⟩

/-- Claim C3, code-bug evaluation: the host understands 1 feature word but the
caller supplies 2, with the entry beyond the host count nonzero (`fsLong 1 = 7`).
The claim (matching the source comment "Check for truncated set bits") requires
resolution to fail `-EOPNOTSUPP`; the truncation-check loop, however, runs over
`[nr_features, host_nr_features)` — empty here — so resolution silently
succeeds, dropping the nonzero entry. -/
theorem featureset_truncation_check_eval :
    envTrunc.hostNrFeatures = 1 ∧ fsLong 1 = 7 ∧
    get_cpuid_domain_info envTrunc (some fsLong) 2 =
      Except.ok ⟨VENDOR_UNKNOWN, false, false, 0, true, false, false⟩ := by
  decide

/-- Claim C5, counterexample: an invalid directive character ('z') in check
mode takes the shared `goto fail` path and returns `-EPERM`
(PermissionDenied), not `-EINVAL` (InvalidArgument) as the claim states. -/
theorem c5_invalid_char_eperm_counterexample :
    strchr_found check_alphabet (cfgChkZf 0) = false ∧
    (xc_cpuid_check envChk (1, 0) cfgChkZ).rc = -EPERM ∧
    (xc_cpuid_check envChk (1, 0) cfgChkZ).rc ≠ -EINVAL := by
  decide

/-- Claim C5, amended: in check mode validation is against the raw hardware
bit only — '1' fails when the raw bit is 0, '0' fails when it is 1, 'x' and
's' are always accepted, and any character `strchr("10xs", ·)` does not find
(i.e. outside {'1','0','x','s'} and not NUL) fails as well — and when no
allocation fails, every failure returns `-EPERM` (PermissionDenied), including
the invalid-character case. -/
theorem xc_cpuid_check_validation (env : XcEnv) (input : ℕ × ℕ)
    (config : Fin 4 → Option (ℕ → Char))
    (hal : ∀ a, env.allocStr a = true) :
    ((xc_cpuid_check env input config).rc = 0 ∨
     (xc_cpuid_check env input config).rc = -EPERM) ∧
    ((xc_cpuid_check env input config).rc = 0 ↔
      ∀ (i : Fin 4) (cfg : ℕ → Char), config i = some cfg → ∀ j, j < 32 →
        check_bit_ok (cfg j) (((cpuid env.hw input).get i).testBit (31 - j))) := by
  simp only [xc_cpuid_check]
  rcases hloop : check_loop env.allocStr config (cpuid env.hw input)
      [0, 1, 2, 3] 0 (fun _ => none) with rc | tr
  · have hrc : rc = -EPERM :=
      check_loop_error_eperm env.allocStr config (cpuid env.hw input) hal
        [0, 1, 2, 3] 0 (fun _ => none) rc hloop
    subst hrc
    constructor
    · exact Or.inr rfl
    · constructor
      · intro h0
        exact absurd h0 (by decide)
      · intro hall
        exfalso
        have hok : ∀ i ∈ ([0, 1, 2, 3] : List (Fin 4)), ∀ cfg,
            config i = some cfg →
            (check_one_reg cfg ((cpuid env.hw input).get i)).isSome = true := by
          intro i _ cfg hcfg
          rw [check_one_reg]
          rw [check_one_reg_go_isSome_iff]
          intro k hk
          rw [Nat.zero_add]
          exact hall i cfg hcfg k hk
        obtain ⟨tr, htr⟩ := check_loop_ok_of_all env.allocStr config
          (cpuid env.hw input) hal [0, 1, 2, 3] 0 (fun _ => none) hok
        rw [hloop] at htr
        exact absurd htr (by simp)
  · constructor
    · exact Or.inl rfl
    · constructor
      · intro _ i cfg hcfg j hj
        obtain ⟨t, hone, _⟩ := check_loop_mem_some env.allocStr config
          (cpuid env.hw input) [0, 1, 2, 3] 0 (fun _ => none) tr i cfg
          fin4_nodup (fin4_mem i) hcfg hloop
        have hsome : (check_one_reg_go cfg ((cpuid env.hw input).get i) 32 0).isSome
            = true := by
          rw [← check_one_reg, hone]
          rfl
        have := (check_one_reg_go_isSome_iff cfg ((cpuid env.hw input).get i)
          32 0).mp hsome j hj
        rwa [Nat.zero_add] at this
      · intro _
        rfl

theorem xc_cpuid_check_validation_witness :
    (xc_cpuid_check envChk (1, 0) cfgChkS).rc = 0 ∨
    (xc_cpuid_check envChk (1, 0) cfgChkS).rc = -EPERM :=
  (xc_cpuid_check_validation envChk (1, 0) cfgChkS (fun _ => rfl)).1

/-- Claim C10: on success, the transformed directive for a register with a
directive present equals the input directive with each 's' position replaced by
the character of the raw hardware bit and every other position — 'x' included —
echoed unchanged; check mode never resolves 'x'. -/
theorem check_transformed_resolves_s_only (env : XcEnv) (input : ℕ × ℕ)
    (config : Fin 4 → Option (ℕ → Char)) (i : Fin 4) (cfg : ℕ → Char)
    (hrc : (xc_cpuid_check env input config).rc = 0)
    (hcfg : config i = some cfg) :
    (xc_cpuid_check env input config).transformed i =
      some ((List.range 32).map (fun j =>
        if cfg j = 's' then bitChar (((cpuid env.hw input).get i).testBit (31 - j))
        else cfg j)) := by
  simp only [xc_cpuid_check] at hrc ⊢
  rcases hloop : check_loop env.allocStr config (cpuid env.hw input)
      [0, 1, 2, 3] 0 (fun _ => none) with rc | tr
  · rw [hloop] at hrc
    rcases check_loop_error_cases env.allocStr config (cpuid env.hw input)
        [0, 1, 2, 3] 0 (fun _ => none) rc hloop with he | he <;>
      (rw [he] at hrc; exact absurd hrc (by decide))
  · obtain ⟨t, hone, htri⟩ := check_loop_mem_some env.allocStr config
      (cpuid env.hw input) [0, 1, 2, 3] 0 (fun _ => none) tr i cfg
      fin4_nodup (fin4_mem i) hcfg hloop
    rw [check_one_reg] at hone
    have hval := check_one_reg_go_eq cfg ((cpuid env.hw input).get i) 32 0 t hone
    show tr i = _
    rw [htri, hval, List.range_eq_range']

theorem check_transformed_resolves_s_only_witness :
    (xc_cpuid_check envChk (1, 0) cfgChkS).transformed 0 =
      some ((List.range 32).map (fun j =>
        if cfgChkSf j = 's' then
          bitChar (((cpuid envChk.hw (1, 0)).get 0).testBit (31 - j))
        else cfgChkSf j)) :=
  check_transformed_resolves_s_only envChk (1, 0) cfgChkS 0 cfgChkSf
    (by decide) rfl

/-- Claim C6: both directive entry points are all-or-nothing — a nonzero
return (expectation violated, invalid character, allocation failure, domain
lookup failure, or programming failure) leaves every transformed output null,
and a zero return populates exactly the registers that had a directive. -/
theorem check_set_all_or_nothing (env : XcEnv) (input : ℕ × ℕ)
    (config : Fin 4 → Option (ℕ → Char)) :
    ((xc_cpuid_check env input config).rc ≠ 0 →
      ∀ i, (xc_cpuid_check env input config).transformed i = none) ∧
    ((xc_cpuid_check env input config).rc = 0 →
      ∀ i, ((xc_cpuid_check env input config).transformed i).isSome =
        (config i).isSome) ∧
    ((xc_cpuid_set env input config).rc ≠ 0 →
      ∀ i, (xc_cpuid_set env input config).transformed i = none) ∧
    ((xc_cpuid_set env input config).rc = 0 →
      ∀ i, ((xc_cpuid_set env input config).transformed i).isSome =
        (config i).isSome) := by
  refine ⟨?_, ?_, ?_, ?_⟩
  · simp only [xc_cpuid_check]
    rcases hloop : check_loop env.allocStr config (cpuid env.hw input)
        [0, 1, 2, 3] 0 (fun _ => none) with rc | tr
    · intro _ i
      rfl
    · intro hne
      exact absurd rfl hne
  · simp only [xc_cpuid_check]
    rcases hloop : check_loop env.allocStr config (cpuid env.hw input)
        [0, 1, 2, 3] 0 (fun _ => none) with rc | tr
    · intro h0
      have h0' : rc = 0 := h0
      rcases check_loop_error_cases env.allocStr config (cpuid env.hw input)
          [0, 1, 2, 3] 0 (fun _ => none) rc hloop with he | he <;>
        (rw [he] at h0'; exact absurd h0' (by decide))
    · intro _ i
      show (tr i).isSome = (config i).isSome
      rcases hci : config i with _ | cfg
      · have hpres := check_loop_pres env.allocStr config (cpuid env.hw input)
          [0, 1, 2, 3] 0 (fun _ => none) tr i (Or.inr hci) hloop
        rw [hpres]
        rfl
      · obtain ⟨t, _, htri⟩ := check_loop_mem_some env.allocStr config
          (cpuid env.hw input) [0, 1, 2, 3] 0 (fun _ => none) tr i cfg
          fin4_nodup (fin4_mem i) hci hloop
        rw [htri]
        rfl
  · simp only [xc_cpuid_set]
    split
    · intro _ i
      rfl
    · split
      · intro _ i
        rfl
      · by_cases hd : env.domctlRc = 0
        · rw [if_pos hd]
          intro hne
          exact absurd rfl hne
        · rw [if_neg hd]
          intro _ i
          rfl
  · simp only [xc_cpuid_set]
    split
    · rename_i rc0 hgi
      intro h0
      have h0' : rc0 = 0 := h0
      exact absurd h0' (get_cpuid_domain_info_error_ne env none 0 rc0 hgi)
    · rename_i info hgi
      split
      · rename_i rc hloop
        intro h0
        have h0' : rc = 0 := h0
        rcases set_loop_error_cases env.allocStr config
            (xc_cpuid_policy env.hw info input (cpuid env.hw input))
            [0, 1, 2, 3] 0 (cpuid env.hw input) (fun _ => none) rc hloop
          with he | he <;>
          (rw [he] at h0'; exact absurd h0' (by decide))
      · rename_i fin tr hloop
        by_cases hd : env.domctlRc = 0
        · rw [if_pos hd]
          intro _ i
          show (tr i).isSome = (config i).isSome
          rcases hci : config i with _ | cfg
          · have hpres := set_loop_tr_pres env.allocStr config
              (xc_cpuid_policy env.hw info input (cpuid env.hw input))
              [0, 1, 2, 3] 0 (cpuid env.hw input) (fun _ => none) tr fin i
              (Or.inr hci) hloop
            rw [hpres]
            rfl
          · obtain ⟨r, t, _, _, htri⟩ := set_loop_mem_some env.allocStr config
              (xc_cpuid_policy env.hw info input (cpuid env.hw input))
              [0, 1, 2, 3] 0 (cpuid env.hw input) (fun _ => none) tr fin i cfg
              fin4_nodup (fin4_mem i) hci hloop
            rw [htri]
            rfl
        · rw [if_neg hd]
          intro h0
          have h0' : env.domctlRc = 0 := h0
          exact absurd h0' hd

theorem check_set_all_or_nothing_witness :
    (xc_cpuid_set envNoDom (1, 0) cfgSK).rc ≠ 0 ∧
    (xc_cpuid_set envNoDom (1, 0) cfgSK).transformed 0 = none :=
  ⟨by decide, (check_set_all_or_nothing envNoDom (1, 0) cfgSK).2.2.1 (by decide) 0⟩

/-- Claim C1, counterexample: at an 's' position `xc_cpuid_set` applies the
*raw hardware* bit, not the Policy Engine's computed bit. On leaf 0x40000000
the policy output is all zero while raw eax bit 31 is 1; with directive
"s" ++ "k"*31 the programmed eax bit 31 is 1 (raw), where the claim predicts 0
(policy). -/
theorem c1_sticky_bit_counterexample :
    cfgSKf 0 = 's' ∧
    get_cpuid_domain_info envHyp none 0 = Except.ok infoHyp ∧
    (xc_cpuid_set envHyp (0x40000000, XEN_CPUID_INPUT_UNUSED) cfgSK).programmed =
      some ⟨0x80000000, 0, 0, 0⟩ ∧
    (Regs.eax ⟨0x80000000, 0, 0, 0⟩).testBit 31 = true ∧
    ((xc_cpuid_policy envHyp.hw infoHyp (0x40000000, XEN_CPUID_INPUT_UNUSED)
        (cpuid envHyp.hw (0x40000000, XEN_CPUID_INPUT_UNUSED))).eax).testBit 31 =
      false := by
  decide

/-- Claim C1, amended: whenever `xc_cpuid_set` reaches the programming step,
a register with no directive is taken wholesale from the Policy Engine output,
and for a register with a directive the bit at position `31 - j` of the
programmed value is: 1 for '1', 0 for '0', the Policy Engine's computed bit for
'x', and the *raw hardware* bit for both 'k' and 's' (the claim's rule for 's'
— the policy bit — is what the counterexample refutes). -/
theorem xc_cpuid_set_per_bit_rule (env : XcEnv) (input : ℕ × ℕ)
    (config : Fin 4 → Option (ℕ → Char)) (info : CpuidDomainInfo) (fin : Regs)
    (hinfo : get_cpuid_domain_info env none 0 = .ok info)
    (hprog : (xc_cpuid_set env input config).programmed = some fin) :
    (∀ i : Fin 4, config i = none →
      fin.get i =
        (xc_cpuid_policy env.hw info input (cpuid env.hw input)).get i) ∧
    (∀ (i : Fin 4) (cfg : ℕ → Char), config i = some cfg → ∀ j, j < 32 →
      (fin.get i).testBit (31 - j) =
        (if cfg j = '1' then true
         else if cfg j = '0' then false
         else if cfg j = 'x' then
           ((xc_cpuid_policy env.hw info input (cpuid env.hw input)).get i).testBit
             (31 - j)
         else ((cpuid env.hw input).get i).testBit (31 - j))) := by
  simp only [xc_cpuid_set, hinfo] at hprog
  split at hprog
  · exact absurd hprog (by simp)
  · rename_i fin' tr hloop
    have hfin : fin' = fin := by
      by_cases hd : env.domctlRc = 0
      · rw [if_pos hd] at hprog
        injection hprog
      · rw [if_neg hd] at hprog
        injection hprog
    subst hfin
    constructor
    · intro i hnone
      exact set_loop_mem_none env.allocStr config
        (xc_cpuid_policy env.hw info input (cpuid env.hw input)) [0, 1, 2, 3] 0
        (cpuid env.hw input) (fun _ => none) tr fin' i fin4_nodup (fin4_mem i)
        hnone hloop
    · intro i cfg hcfg j hj
      obtain ⟨r, t, hone, hgeti, _⟩ := set_loop_mem_some env.allocStr config
        (xc_cpuid_policy env.hw info input (cpuid env.hw input)) [0, 1, 2, 3] 0
        (cpuid env.hw input) (fun _ => none) tr fin' i cfg fin4_nodup
        (fin4_mem i) hcfg hloop
      rw [hgeti]
      rw [set_one_reg] at hone
      have hbit := set_one_reg_go_testBit cfg
        ((xc_cpuid_policy env.hw info input (cpuid env.hw input)).get i) 32 0
        ((cpuid env.hw input).get i) r t (by omega) hone j hj
      rwa [Nat.zero_add] at hbit

theorem xc_cpuid_set_per_bit_rule_witness :
    (get_cpuid_domain_info envHyp none 0 = Except.ok infoHyp ∧
     (xc_cpuid_set envHyp (0x40000000, XEN_CPUID_INPUT_UNUSED) cfgSK).programmed =
       some ⟨0x80000000, 0, 0, 0⟩ ∧ cfgSK 0 = some cfgSKf ∧ 0 < 32) ∧
    ((⟨0x80000000, 0, 0, 0⟩ : Regs).get 0).testBit (31 - 0) =
      (if cfgSKf 0 = '1' then true
       else if cfgSKf 0 = '0' then false
       else if cfgSKf 0 = 'x' then
         ((xc_cpuid_policy envHyp.hw infoHyp (0x40000000, XEN_CPUID_INPUT_UNUSED)
             (cpuid envHyp.hw (0x40000000, XEN_CPUID_INPUT_UNUSED))).get 0).testBit
           (31 - 0)
       else ((cpuid envHyp.hw (0x40000000, XEN_CPUID_INPUT_UNUSED)).get 0).testBit
         (31 - 0)) :=
  ⟨⟨by decide, by decide, rfl, by decide⟩,
   (xc_cpuid_set_per_bit_rule envHyp (0x40000000, XEN_CPUID_INPUT_UNUSED) cfgSK
       infoHyp ⟨0x80000000, 0, 0, 0⟩ (by decide) (by decide)).2 0 cfgSKf rfl 0
     (by decide)⟩

/-- Claim C7, code-bug evaluation: with an all-'x' eax directive on a
hypervisor-reserved leaf, every applied bit is the policy bit 0, so the
function's own comment ("For 's' and 'x' the configuration is overwritten with
the value applied") and the claim require the transformed directive to read as
32 '0' characters; the code echoes the 32 'x' characters unchanged. -/
theorem c7_x_not_resolved_eval :
    (xc_cpuid_set envHyp (0x40000000, XEN_CPUID_INPUT_UNUSED) cfgAllX).rc = 0 ∧
    (xc_cpuid_set envHyp (0x40000000, XEN_CPUID_INPUT_UNUSED) cfgAllX).programmed =
      some ⟨0, 0, 0, 0⟩ ∧
    (xc_cpuid_set envHyp (0x40000000, XEN_CPUID_INPUT_UNUSED) cfgAllX).transformed 0 =
      some (List.replicate 32 'x') ∧
    List.replicate 32 'x' ≠ List.replicate 32 '0' := by
  decide
